import Mathlib

/-!
Verification of the esg-matching repository sources:
  * src/esg_matching/matcher/drm.py          (class DbMatcherDrm)
  * src/esgmatching/file_reader/file_settings.py (class JsonSettings)

The database layer is modelled relationally: a table is a list of rows, a row
is an association list from column names to nullable string cells.  Statements
issued by the matcher are recorded as events whose application to a state is
given by `applyEvent`, so temporal properties (statement ordering, crash
prefixes) are expressible.  Collaborator classes that are not part of src/
(the condition builder, the datasource descriptors, the matching policy and
the matcher base class) are modelled from the spec; each such definition is
marked with a doc comment starting `Modelled from the spec:`.
-/

namespace EsgMatching

/-- A nullable database cell. -/
abbrev Cell := Option String

/-- A database row: association list from column name to cell value. -/
abbrev Row := List (String × Cell)

/-- Value of a named column in a row (`none` when the column is absent or NULL). -/
def Row.val (r : Row) (n : String) : Cell :=
  match r.find? (fun p => p.1 = n) with
  | some p => p.2
  | none => none

/-- A physical database column: owning table, physical name, and the name under
which the column is exported towards the matching-result schema. -/
structure DbColumn where
  table : String
  name : String
  label : String
deriving DecidableEq, Repr

/-- A column of a select projection: either a physical column or a literal
value labelled with an output name. -/
inductive SelectCol where
  | phys (c : DbColumn)
  | lit (value : String) (outName : String)
deriving DecidableEq, Repr

/-- The name under which a projection column is exported. -/
def SelectCol.label : SelectCol → String
  | .phys c => c.label
  | .lit _ outName => outName

/-- Modelled from the spec: the condition expression tree built by the
condition builder (esg_matching engine, not in src/): column-equality leaves,
column-to-literal leaves, and conjunction (spec section 4.1). -/
inductive Condition where
  | equalCols (left right : DbColumn)
  | equalValue (col : DbColumn) (value : String)
  | and (c1 c2 : Condition)
deriving DecidableEq, Repr

/-- The flattened list of leaves of a condition tree. -/
def Condition.leaves : Condition → List Condition
  | .equalCols l r => [.equalCols l r]
  | .equalValue c v => [.equalValue c v]
  | .and c1 c2 => c1.leaves ++ c2.leaves

/-- Whether a condition is a single column-equality leaf. -/
def Condition.isEqLeaf : Condition → Bool
  | .equalCols _ _ => true
  | _ => false

/-- The leaves contributed by an optional accumulated condition. -/
def accLeavesOpt : Option Condition → List Condition
  | some c => c.leaves
  | none => []

/-- Evaluation of a condition against one (from-row, join-row) pair.  A column
is resolved against the from-table row first, then the join-table row; SQL
NULL semantics: a comparison involving a missing value is not satisfied. -/
def colCell (ft jt : String) (l r : Row) (c : DbColumn) : Cell :=
  if c.table = ft then Row.val l c.name
  else if c.table = jt then Row.val r c.name
  else none

/-- Boolean evaluation of a condition over a (from-row, join-row) pair. -/
def evalCond (ft jt : String) (l r : Row) : Condition → Bool
  | .equalCols a b =>
      match colCell ft jt l r a, colCell ft jt l r b with
      | some x, some y => x = y
      | _, _ => false
  | .equalValue c v =>
      match colCell ft jt l r c with
      | some x => x = v
      | none => false
  | .and c1 c2 => evalCond ft jt l r c1 && evalCond ft jt l r c2

/-- Modelled from the spec: the datasource descriptor (not in src/), holding
the alias map, the map to the matching-result schema, and the matching-id
column name (spec section 3). -/
structure DatasourceDescriptor where
  name : String
  table : String
  matching_alias : List (String × String)
  map_to_matching : List (String × String)
  matching_id : String

/-- Lookup in an association list of strings. -/
def lookupStr (l : List (String × String)) (k : String) : Option String :=
  (l.find? (fun p => p.1 = k)).map (fun p => p.2)

/-- Modelled from the spec: the descriptor's table column of the given name. -/
def DatasourceDescriptor.get_table_column (d : DatasourceDescriptor) (n : String) : DbColumn :=
  ⟨d.table, n, n⟩

/-- Modelled from the spec: resolve an alias to this descriptor's physical
column. -/
def DatasourceDescriptor.get_table_column_by_alias (d : DatasourceDescriptor) (a : String) :
    Option DbColumn :=
  (lookupStr d.matching_alias a).map (fun n => d.get_table_column n)

/-- Modelled from the spec: resolve an alias to the matching-table attribute
name that this descriptor's aliased column maps to. -/
def DatasourceDescriptor.get_matching_attribute_by_alias (d : DatasourceDescriptor) (a : String) :
    Option String :=
  match lookupStr d.matching_alias a with
  | none => none
  | some phys => (d.map_to_matching.find? (fun p => p.2 = phys)).map (fun p => p.1)

/-- Modelled from the spec: the matching-table attribute names this descriptor
maps columns to, in map order. -/
def DatasourceDescriptor.get_name_cols_mapped_to_matching (d : DatasourceDescriptor) :
    List String :=
  d.map_to_matching.map (fun p => p.1)

/-- Modelled from the spec: this descriptor's physical columns mapped to the
matching-result schema, each exported under its matching-table name. -/
def DatasourceDescriptor.get_db_cols_mapped_to_matching (d : DatasourceDescriptor) :
    List SelectCol :=
  d.map_to_matching.map (fun p => SelectCol.phys ⟨d.table, p.2, p.1⟩)

/-- Modelled from the spec: this descriptor's table columns carrying exactly
the given names. -/
def DatasourceDescriptor.get_db_cols_with_same_name (d : DatasourceDescriptor)
    (names : List String) : List SelectCol :=
  names.map (fun n => SelectCol.phys ⟨d.table, n, n⟩)

/-- Modelled from the spec: the matching policy (policy.py, not in src/): a map
from matching-type tag to the ordered map rule-name to attribute-alias list. -/
structure MatchingPolicy where
  rules : List (String × List (String × List String))

/-- Modelled from the spec: the ordered rules of one matching type, empty when
the type is absent. -/
def MatchingPolicy.rules_of_type (p : MatchingPolicy) (t : String) :
    List (String × List String) :=
  match p.rules.find? (fun q => q.1 = t) with
  | some q => q.2
  | none => []

/-- Modelled from the spec: whether at least one rule exists for the tag. -/
def MatchingPolicy.has_rule_type (p : MatchingPolicy) (t : String) : Bool :=
  !(p.rules_of_type t).isEmpty

/-- Errors raised by the matcher (exceptions_matching_policy and the
configuration errors of spec section 7). -/
inductive MatchingError where
  | DirectResidualMatchingNotInPolicy
  | AliasNotResolvable
  | EmptyJoinCondition
deriving DecidableEq, Repr

/-- The matcher's bound context: the four datasource descriptors, the rules of
its matching type, and the (read-only) referential table contents. -/
structure MatcherCtx where
  tgt_source : DatasourceDescriptor
  ref_source : DatasourceDescriptor
  no_matching_source : DatasourceDescriptor
  matching_source : DatasourceDescriptor
  matching_rules : List (String × List String)
  ref_rows : List Row

/-- The mutable database state the matcher acts on: the matching table and the
no-matching (residual) table. -/
structure DbState where
  matching : List Row
  noMatching : List Row
deriving DecidableEq, Repr

/-- The matching-type tag of DbMatcherDrm (drm.py line 36). -/
def matching_type_drm : String := "drm"

/-- Embedding of DbMatcherDrm._can_matcher_be_used (drm.py lines 40-57):
raises DirectResidualMatchingNotInPolicy when the policy has no drm rule. -/
def _can_matcher_be_used (policy : MatchingPolicy) : Except MatchingError Unit :=
  if policy.has_rule_type matching_type_drm then .ok () else
    .error .DirectResidualMatchingNotInPolicy

/-- The equality leaf built for one attribute alias (drm.py lines 80-84):
left column from the no-matching table named by the target's matching
attribute, right column from the referential source resolved by alias. -/
def leafFor (m : MatcherCtx) (a : String) : Option Condition :=
  match m.tgt_source.get_matching_attribute_by_alias a with
  | none => none
  | some tgtColName =>
    match m.ref_source.get_table_column_by_alias a with
    | none => none
    | some rightCol =>
      some (.equalCols (m.no_matching_source.get_table_column tgtColName) rightCol)

/-- One step of the join-condition accumulation (drm.py lines 85-89): the
first leaf becomes the condition, later leaves are conjoined with it. -/
def joinAcc (acc : Option Condition) (leaf : Condition) : Condition :=
  match acc with
  | none => leaf
  | some c => .and leaf c

/-- Embedding of the join-condition loop of _get_conditions (drm.py lines
78-89): one equality leaf per alias, accumulated by conjunction.  A failing
alias resolution is the fatal configuration error of spec section 7. -/
def buildJoinCondition (m : MatcherCtx) :
    List String → Option Condition → Except MatchingError (Option Condition)
  | [], acc => .ok acc
  | a :: rest, acc =>
    match leafFor m a with
    | none => .error .AliasNotResolvable
    | some leaf => buildJoinCondition m rest (some (joinAcc acc leaf))

/-- Embedding of DbMatcherDrm._get_conditions (drm.py lines 59-95): the join
condition accumulated from the attribute aliases, and the where condition
equating the no-matching table's tgt_name column with the target's name. -/
def _get_conditions (m : MatcherCtx) (attribute_rules : List String) :
    Except MatchingError (Option Condition × Condition) :=
  match buildJoinCondition m attribute_rules none with
  | .error e => .error e
  | .ok jc =>
    .ok (jc, .equalValue (m.no_matching_source.get_table_column "tgt_name") m.tgt_source.name)

/-- Modelled from the spec: DbMatcher._get_literal_cols_match (not in src/):
the literal descriptive columns of a positive match (rule name, matching type,
matching scope), with their output names (spec section 4.4 step 4).  The drm
matcher sets the literal type to direct and the scope to residual. -/
def _get_literal_cols_match (rule_name : String) : List SelectCol × List String :=
  ([.lit rule_name "matching_rule", .lit "direct" "matching_type",
    .lit "residual" "matching_scope"],
   ["matching_rule", "matching_type", "matching_scope"])

/-- Embedding of DbMatcherDrm._get_cols_match (drm.py lines 97-124): literal
columns, then no-matching columns named by the target's matching attributes,
then referential columns mapped to the matching schema; names likewise. -/
def _get_cols_match (m : MatcherCtx) (rule_name : String) :
    List SelectCol × List String :=
  let litCols := _get_literal_cols_match rule_name
  let no_match_name_cols := m.tgt_source.get_name_cols_mapped_to_matching
  let no_match_db_cols := m.no_matching_source.get_db_cols_with_same_name no_match_name_cols
  let ref_db_cols := m.ref_source.get_db_cols_mapped_to_matching
  let ref_name_cols := m.ref_source.get_name_cols_mapped_to_matching
  (litCols.1 ++ no_match_db_cols ++ ref_db_cols,
   litCols.2 ++ no_match_name_cols ++ ref_name_cols)

/-- A select statement over the no-matching table joined with the referential
table: projection columns, source tables, join condition, where condition. -/
structure SelectStm where
  cols : List SelectCol
  fromTable : String
  joinTable : String
  joinOn : Condition
  whereC : Condition
deriving DecidableEq, Repr

/-- Statements the matcher submits to the database, recorded as events:
insert-from-select into a table (target column names positionally aligned
with the select projection), and delete-where-id-in-subquery. -/
inductive DbEvent where
  | insertFromSelect (table : String) (names : List String) (sel : SelectStm)
  | deleteWhereIn (table : String) (idName : String) (sub : SelectStm)
deriving DecidableEq, Repr

/-- Rows of a named table in the current state (the referential table is
read-only and lives in the matcher context). -/
def tableRows (m : MatcherCtx) (st : DbState) (t : String) : List Row :=
  if t = m.no_matching_source.table then st.noMatching
  else if t = m.ref_source.table then m.ref_rows
  else if t = m.matching_source.table then st.matching
  else []

/-- Cartesian product of two row lists (the unfiltered inner join). -/
def crossJoin {α β : Type} (xs : List α) (ys : List β) : List (α × β) :=
  xs.flatMap (fun x => ys.map (fun y => (x, y)))

/-- The (from-row, join-row) pairs satisfying the join and where conditions. -/
def SelectStm.pairsOf (s : SelectStm) (m : MatcherCtx) (st : DbState) : List (Row × Row) :=
  (crossJoin (tableRows m st s.fromTable) (tableRows m st s.joinTable)).filter
    (fun p => evalCond s.fromTable s.joinTable p.1 p.2 s.joinOn &&
              evalCond s.fromTable s.joinTable p.1 p.2 s.whereC)

/-- Value of one projection column for one joined pair. -/
def SelectStm.colVal (s : SelectStm) (p : Row × Row) : SelectCol → Cell
  | .phys c => colCell s.fromTable s.joinTable p.1 p.2 c
  | .lit v _ => some v

/-- The projected values of one joined pair. -/
def SelectStm.project (s : SelectStm) (p : Row × Row) : List Cell :=
  s.cols.map (s.colVal p)

/-- The first projected value of one joined pair (for one-column subqueries). -/
def SelectStm.firstVal (s : SelectStm) (p : Row × Row) : Cell :=
  match s.cols with
  | c :: _ => s.colVal p c
  | [] => none

/-- SQL membership of a cell in a list of cells: NULL is never a member. -/
def inIds (c : Cell) (ids : List Cell) : Bool :=
  match c with
  | some a => decide ((some a : Cell) ∈ ids)
  | none => false

/-- Application of one recorded statement to the database state.  The
subqueries of a statement are evaluated against the state current at
execution time. -/
def applyEvent (m : MatcherCtx) (st : DbState) : DbEvent → DbState
  | .insertFromSelect t names sel =>
    let newRows := (sel.pairsOf m st).map (fun p => names.zip (sel.project p))
    ⟨if t = m.matching_source.table then st.matching ++ newRows else st.matching,
     if t = m.no_matching_source.table then st.noMatching ++ newRows else st.noMatching⟩
  | .deleteWhereIn t idName sub =>
    let ids := (sub.pairsOf m st).map (fun p => sub.firstVal p)
    ⟨st.matching,
     if t = m.no_matching_source.table then
       st.noMatching.filter (fun r => !(inIds (Row.val r idName) ids))
     else st.noMatching⟩

/-- Replay of a list of recorded statements from a state. -/
def replay (m : MatcherCtx) (st : DbState) (evs : List DbEvent) : DbState :=
  evs.foldl (applyEvent m) st

/-- The select statement of the matching insert (drm.py lines 154-159): the
matched-row projection over no-matching joined with referential, filtered by
the join and where conditions. -/
def selStmOf (m : MatcherCtx) (rule_name : String) (jc wc : Condition) : SelectStm :=
  ⟨(_get_cols_match m rule_name).1, m.no_matching_source.table, m.ref_source.table, jc, wc⟩

/-- The one-column subquery of the residual delete (drm.py lines 170-175): the
matching-id column selected under the same join and where conditions. -/
def subStmOf (m : MatcherCtx) (jc wc : Condition) : SelectStm :=
  ⟨[SelectCol.phys (m.no_matching_source.get_table_column m.no_matching_source.matching_id)],
   m.no_matching_source.table, m.ref_source.table, jc, wc⟩

/-- The insert statement of one rule (drm.py lines 161-165): the matching
table's columns carrying the select's names, populated from the select. -/
def insEvent (m : MatcherCtx) (rule_name : String) (jc wc : Condition) : DbEvent :=
  .insertFromSelect m.matching_source.table
    ((m.matching_source.get_db_cols_with_same_name (_get_cols_match m rule_name).2).map
      SelectCol.label)
    (selStmOf m rule_name jc wc)

/-- The delete statement of one rule (drm.py lines 176-179): delete from the
no-matching table the rows whose matching id the subquery selects. -/
def delEvent (m : MatcherCtx) (jc wc : Condition) : DbEvent :=
  .deleteWhereIn m.no_matching_source.table m.no_matching_source.matching_id (subStmOf m jc wc)

/-- Embedding of the per-rule body of DbMatcherDrm.execute_matching (drm.py
lines 142-179): derive the conditions, execute the insert-from-select into the
matching table, then the delete of matched ids from the no-matching table. -/
def processRule (m : MatcherCtx) (st : DbState) (rule : String × List String) :
    Except MatchingError (DbState × List DbEvent) :=
  match _get_conditions m rule.2 with
  | .error e => .error e
  | .ok (none, _) => .error .EmptyJoinCondition
  | .ok (some jc, wc) =>
    let ev1 := insEvent m rule.1 jc wc
    let ev2 := delEvent m jc wc
    let st1 := applyEvent m st ev1
    let st2 := applyEvent m st1 ev2
    .ok (st2, [ev1, ev2])

/-- Embedding of the rule loop of execute_matching (drm.py line 142): rules of
the matching type processed strictly in order; the trace records every
statement executed before a failure. -/
def runRules (m : MatcherCtx) (st : DbState) :
    List (String × List String) → List DbEvent × Except MatchingError DbState
  | [] => ([], .ok st)
  | r :: rs =>
    match processRule m st r with
    | .error e => ([], .error e)
    | .ok (st1, evs1) =>
      let rest := runRules m st1 rs
      (evs1 ++ rest.1, rest.2)

/-- Embedding of DbMatcherDrm.execute_matching (drm.py lines 126-184). -/
def execute_matching (m : MatcherCtx) (st : DbState) :
    List DbEvent × Except MatchingError DbState :=
  runRules m st m.matching_rules

/-- Modelled from the spec: the matcher base class (DbMatcher, not in src/)
invokes the applicability gate before executing any statement, and binds the
rules of the matcher's type from the policy (spec section 4.4 steps 1-7). -/
def run_matcher (policy : MatchingPolicy) (m : MatcherCtx) (st : DbState) :
    List DbEvent × Except MatchingError DbState :=
  match _can_matcher_be_used policy with
  | .error e => ([], .error e)
  | .ok _ =>
    execute_matching { m with matching_rules := policy.rules_of_type matching_type_drm } st

/-- Whether a row of the no-matching table is matched by some referential row
under the given join and where conditions. -/
def matchedRow (m : MatcherCtx) (jc wc : Condition) (r : Row) : Bool :=
  m.ref_rows.any (fun g =>
    evalCond m.no_matching_source.table m.ref_source.table r g jc &&
    evalCond m.no_matching_source.table m.ref_source.table r g wc)

/-- The joined (residual row, referential row) pairs satisfying both
conditions, stated over the raw table contents. -/
def matchedPairs (m : MatcherCtx) (st : DbState) (jc wc : Condition) : List (Row × Row) :=
  (crossJoin st.noMatching m.ref_rows).filter
    (fun p => evalCond m.no_matching_source.table m.ref_source.table p.1 p.2 jc &&
              evalCond m.no_matching_source.table m.ref_source.table p.1 p.2 wc)

/-- The matching ids selected by the residual delete's subquery. -/
def delIds (m : MatcherCtx) (st : DbState) (jc wc : Condition) : List Cell :=
  ((subStmOf m jc wc).pairsOf m st).map (fun p => (subStmOf m jc wc).firstVal p)

/-- The where condition the residual matcher builds: the no-matching table's
tgt_name discriminator column equals the target datasource's name. -/
def target_where_condition (m : MatcherCtx) : Condition :=
  .equalValue (m.no_matching_source.get_table_column "tgt_name") m.tgt_source.name

/-- The resolved leaves of an alias list, in order (`none` when an alias does
not resolve). -/
def resolveLeaves (m : MatcherCtx) : List String → Option (List Condition)
  | [] => some []
  | a :: rest =>
    match leafFor m a with
    | none => none
    | some leaf =>
      match resolveLeaves m rest with
      | none => none
      | some ls => some (leaf :: ls)

/-- Trace shape: an alternation of insert-into-matching-table followed by
delete-from-no-matching-table statements, one pair per processed rule. -/
def insertDeletePairs (mt nmt : String) : List DbEvent → Bool
  | [] => true
  | .insertFromSelect t _ _ :: .deleteWhereIn t2 _ _ :: rest =>
    t = mt && t2 = nmt && insertDeletePairs mt nmt rest
  | _ => false

/-- An event that never grows the no-matching table: an insert into a table
other than the no-matching table, or any delete. -/
def okEvent (nmt : String) : DbEvent → Prop
  | .insertFromSelect t _ _ => t ≠ nmt
  | .deleteWhereIn _ _ _ => True

/-- The table an event targets: inserts go to the matching table, deletes to
the no-matching table. -/
def eventShape (mt nmt : String) : DbEvent → Prop
  | .insertFromSelect t _ _ => t = mt
  | .deleteWhereIn t _ _ => t = nmt

end EsgMatching

namespace EsgSettings

/-- The JSON values a settings file can hold. -/
inductive Json where
  | str (s : String)
  | num (n : Int)
  | obj (fields : List (String × Json))
  | arr (elems : List Json)
deriving Repr

/-- Key lookup on a JSON object; `none` models both an absent key and the
false result of a python membership test on a non-dict value. -/
def Json.objGet : Json → String → Option Json
  | .obj fields, k => (fields.find? (fun p => p.1 = k)).map (fun p => p.2)
  | _, _ => none

/-- A value produced by python evaluation of a configuration string. -/
inductive PyValue where
  | bool (b : Bool)
  | int (n : Int)
  | str (s : String)
  | none
deriving Repr

/-- The typed errors of exceptions_settings raised by JsonSettings, together
with the python runtime errors the loader can hit (NameError from eval on an
undefined identifier, TypeError from a wrongly typed value, KeyError from a
missing subscript). -/
inductive SettingsError where
  | DataSourceSettingsNotDefined
  | IfTableExistsNotRecognized
  | MatchingRoleNotRecognized
  | AliasMatchingNotDefined
  | FieldsMappingToMatchingTableNotDefined
  | MatchingPolicyEmpty
  | DfmRulesEmptyInMatchingPolicy
  | DrmRulesEmptyInMatchingPolicy
  | IfmRulesEmptyInMatchingPolicy
  | PyNameError
  | PyTypeError
  | PyKeyError
deriving DecidableEq, Repr

/-- Digits of a decimal literal, accumulated left to right; `none` when a
non-digit occurs. -/
def parseNatAux : List Char → Nat → Option Nat
  | [], acc => some acc
  | c :: cs, acc =>
    if c.isDigit then parseNatAux cs (acc * 10 + (c.toNat - 48)) else none

/-- A python integer literal (optionally negated), or `none` when the string
is not one. -/
def strToIntLit (s : String) : Option Int :=
  match s.data with
  | [] => none
  | '-' :: [] => none
  | '-' :: c :: cs => (parseNatAux (c :: cs) 0).map (fun n => -(n : Int))
  | cs => (parseNatAux cs 0).map (fun n => (n : Int))

/-- Model of the python builtin eval on the configuration strings this loader
is given: the capitalised literals True, False and None evaluate to the
corresponding values, an integer literal evaluates to an integer, and any
other string (in particular the lowercase identifiers true and false, which
are undefined names in python) raises NameError. -/
def pyEval (s : String) : Except SettingsError PyValue :=
  if s = "True" then .ok (.bool true)
  else if s = "False" then .ok (.bool false)
  else if s = "None" then .ok .none
  else
    match strToIntLit s with
    | some n => .ok (.int n)
    | Option.none => .error .PyNameError

/-- Python eval applied to a JSON value: eval accepts only strings here;
any other value raises TypeError. -/
def pyEvalJson : Json → Except SettingsError PyValue
  | .str s => pyEval s
  | _ => .error .PyTypeError

/-- Model of python len on the JSON values occurring in settings files. -/
def pyLen : Json → Except SettingsError Nat
  | .obj fields => .ok fields.length
  | .arr elems => .ok elems.length
  | .str s => .ok s.length
  | .num _ => .error .PyTypeError

/-- Model of the python list constructor on the JSON values occurring in
settings files: a list is copied, a dict yields its keys, a string its
characters. -/
def pyList : Json → Except SettingsError (List Json)
  | .arr elems => .ok elems
  | .obj fields => .ok (fields.map (fun p => Json.str p.1))
  | .str s => .ok (s.toList.map (fun c => Json.str (String.mk [c])))
  | .num _ => .error .PyTypeError

/-- Model of the python dict constructor on the JSON values occurring in
settings files: a dict is copied, anything else raises TypeError. -/
def pyDict : Json → Except SettingsError (List (String × Json))
  | .obj fields => .ok fields
  | _ => .error .PyTypeError

/-- The attributes of a JsonSettings object (file_settings.py lines 38-60). -/
structure JsonSettings where
  file_path : Json
  file_extension_pattern : Json
  filename_pattern : Json
  file_encoding : Json
  file_separator : Json
  datasource_name : Json
  datasource_table_name : Json
  datasource_create_table : PyValue
  datasource_if_table_exists : Json
  datasource_primary_keys : Option (List Json)
  datasource_attributes : Option Json
  matching_role : Json
  matching_id : Json
  matching_alias : Option (List (String × Json))
  map_to_matching : Option (List (String × Json))
  map_indirect_matching : Option (List (String × Json))
  matching_policy : Option Json
deriving Repr

/-- The attribute defaults assigned by JsonSettings.__init__ (file_settings.py
lines 38-60). -/
def defaultSettings : JsonSettings :=
  { file_path := .str ""
    file_extension_pattern := .str ""
    filename_pattern := .str ""
    file_encoding := .str "utf-8"
    file_separator := .str ";"
    datasource_name := .str "unknown"
    datasource_table_name := .str "unknown"
    datasource_create_table := .bool true
    datasource_if_table_exists := .str "drop"
    datasource_primary_keys := none
    datasource_attributes := none
    matching_role := .str "target"
    matching_id := .str ""
    matching_alias := none
    map_to_matching := none
    map_indirect_matching := none
    matching_policy := none }

/-- The file_path branch (file_settings.py lines 95-96). -/
def fpPath (sub : Json) (s : JsonSettings) : JsonSettings :=
  match sub.objGet "file_path" with
  | some v => { s with file_path := v }
  | none => s

/-- The file_extension_pattern branch (file_settings.py lines 97-98). -/
def fpExtension (sub : Json) (s : JsonSettings) : JsonSettings :=
  match sub.objGet "file_extension_pattern" with
  | some v => { s with file_extension_pattern := v }
  | none => s

/-- The filename_pattern branch (file_settings.py lines 99-100): when the key
is present the code assigns self.file_path from the file_path key (and never
assigns self.filename_pattern); subscripting a missing file_path key raises
KeyError. -/
def fpFilenamePattern (sub : Json) (s : JsonSettings) : Except SettingsError JsonSettings :=
  match sub.objGet "filename_pattern" with
  | some _ =>
    match sub.objGet "file_path" with
    | some v => .ok { s with file_path := v }
    | none => .error .PyKeyError
  | none => .ok s

/-- The encoding branch (file_settings.py lines 101-102). -/
def fpEncoding (sub : Json) (s : JsonSettings) : JsonSettings :=
  match sub.objGet "encoding" with
  | some v => { s with file_encoding := v }
  | none => s

/-- The separator branch (file_settings.py lines 103-104). -/
def fpSeparator (sub : Json) (s : JsonSettings) : JsonSettings :=
  match sub.objGet "separator" with
  | some v => { s with file_separator := v }
  | none => s

/-- Embedding of JsonSettings._set_file_processing_settings (file_settings.py
lines 78-104): the section is optional; its branches run in source order. -/
def setFileProcessing (j : Json) (s : JsonSettings) : Except SettingsError JsonSettings :=
  match j.objGet "file_processing" with
  | none => .ok s
  | some sub =>
    match fpFilenamePattern sub (fpExtension sub (fpPath sub s)) with
    | .error e => .error e
    | .ok s1 => .ok (fpSeparator sub (fpEncoding sub s1))

/-- The name branch (file_settings.py lines 128-129). -/
def dsName (sub : Json) (s : JsonSettings) : JsonSettings :=
  match sub.objGet "name" with
  | some v => { s with datasource_name := v }
  | none => s

/-- The table_name branch (file_settings.py lines 130-131). -/
def dsTableName (sub : Json) (s : JsonSettings) : JsonSettings :=
  match sub.objGet "table_name" with
  | some v => { s with datasource_table_name := v }
  | none => s

/-- The create_table branch (file_settings.py lines 132-133): the raw
configuration string is passed to python eval and the result assigned. -/
def dsCreateTable (sub : Json) (s : JsonSettings) : Except SettingsError JsonSettings :=
  match sub.objGet "create_table" with
  | some v =>
    match pyEvalJson v with
    | .ok pv => .ok { s with datasource_create_table := pv }
    | .error e => .error e
  | none => .ok s

/-- The if_table_exists branch (file_settings.py lines 134-138): only the
strings drop and clean are accepted. -/
def dsIfTableExists (sub : Json) (s : JsonSettings) : Except SettingsError JsonSettings :=
  match sub.objGet "if_table_exists" with
  | some (.str "drop") => .ok { s with datasource_if_table_exists := .str "drop" }
  | some (.str "clean") => .ok { s with datasource_if_table_exists := .str "clean" }
  | some _ => .error .IfTableExistsNotRecognized
  | none => .ok s

/-- The primary_keys branch (file_settings.py lines 139-142): the value is
converted by list(); an empty result leaves the default None. -/
def dsPrimaryKeys (sub : Json) (s : JsonSettings) : Except SettingsError JsonSettings :=
  match sub.objGet "primary_keys" with
  | some v =>
    match pyList v with
    | .ok l => .ok (if l.length > 0 then { s with datasource_primary_keys := some l } else s)
    | .error e => .error e
  | none => .ok s

/-- The attributes branch (file_settings.py lines 143-146): assigned only when
non-empty, silently skipped otherwise. -/
def dsAttributes (sub : Json) (s : JsonSettings) : Except SettingsError JsonSettings :=
  match sub.objGet "attributes" with
  | some v =>
    match pyLen v with
    | .ok n => .ok (if n > 0 then { s with datasource_attributes := some v } else s)
    | .error e => .error e
  | none => .ok s

/-- The matching_role branch (file_settings.py lines 147-151): only the four
role strings are accepted. -/
def dsMatchingRole (sub : Json) (s : JsonSettings) : Except SettingsError JsonSettings :=
  match sub.objGet "matching_role" with
  | some (.str "referential") => .ok { s with matching_role := .str "referential" }
  | some (.str "target") => .ok { s with matching_role := .str "target" }
  | some (.str "matching") => .ok { s with matching_role := .str "matching" }
  | some (.str "no-matching") => .ok { s with matching_role := .str "no-matching" }
  | some _ => .error .MatchingRoleNotRecognized
  | none => .ok s

/-- The matching_id branch (file_settings.py lines 152-153). -/
def dsMatchingId (sub : Json) (s : JsonSettings) : JsonSettings :=
  match sub.objGet "matching_id" with
  | some v => { s with matching_id := v }
  | none => s

/-- The matching_alias branch (file_settings.py lines 154-159): an empty alias
dict raises AliasMatchingNotDefined. -/
def dsMatchingAlias (sub : Json) (s : JsonSettings) : Except SettingsError JsonSettings :=
  match sub.objGet "matching_alias" with
  | some v =>
    match pyDict v with
    | .ok d =>
      if d.length > 0 then .ok { s with matching_alias := some d }
      else .error .AliasMatchingNotDefined
    | .error e => .error e
  | none => .ok s

/-- The map_to_matching branch (file_settings.py lines 160-165). -/
def dsMapToMatching (sub : Json) (s : JsonSettings) : Except SettingsError JsonSettings :=
  match sub.objGet "map_to_matching" with
  | some v =>
    match pyDict v with
    | .ok d =>
      if d.length > 0 then .ok { s with map_to_matching := some d }
      else .error .FieldsMappingToMatchingTableNotDefined
    | .error e => .error e
  | none => .ok s

/-- The map_indirect_matching branch (file_settings.py lines 166-171): note the
source raises the same FieldsMappingToMatchingTableNotDefined error here. -/
def dsMapIndirect (sub : Json) (s : JsonSettings) : Except SettingsError JsonSettings :=
  match sub.objGet "map_indirect_matching" with
  | some v =>
    match pyDict v with
    | .ok d =>
      if d.length > 0 then .ok { s with map_indirect_matching := some d }
      else .error .FieldsMappingToMatchingTableNotDefined
    | .error e => .error e
  | none => .ok s

/-- Embedding of JsonSettings._set_data_source_settings (file_settings.py
lines 106-173): a missing data_source section raises
DataSourceSettingsNotDefined; otherwise the branches run in source order. -/
def setDataSource (j : Json) (s : JsonSettings) : Except SettingsError JsonSettings :=
  match j.objGet "data_source" with
  | none => .error .DataSourceSettingsNotDefined
  | some sub =>
    match dsCreateTable sub (dsTableName sub (dsName sub s)) with
    | .error e => .error e
    | .ok s1 =>
      match dsIfTableExists sub s1 with
      | .error e => .error e
      | .ok s2 =>
        match dsPrimaryKeys sub s2 with
        | .error e => .error e
        | .ok s3 =>
          match dsAttributes sub s3 with
          | .error e => .error e
          | .ok s4 =>
            match dsMatchingRole sub s4 with
            | .error e => .error e
            | .ok s5 =>
              match dsMatchingAlias sub (dsMatchingId sub s5) with
              | .error e => .error e
              | .ok s6 =>
                match dsMapToMatching sub s6 with
                | .error e => .error e
                | .ok s7 => dsMapIndirect sub s7

/-- One rule-type check of _set_matching_policy_settings: when the key is
present an empty rule dict raises the given typed error. -/
def checkRuleKey (pd : Json) (key : String) (emptyErr : SettingsError) :
    Except SettingsError Unit :=
  match pd.objGet key with
  | some rules =>
    match pyLen rules with
    | .error e => .error e
    | .ok 0 => .error emptyErr
    | .ok _ => .ok ()
  | none => .ok ()

/-- The per-policy rule-type checks of _set_matching_policy_settings
(file_settings.py lines 200-213): an empty rule dict under dfm, drm or ifm is
the corresponding typed error, checked in source order. -/
def checkPolicy (pd : Json) : Except SettingsError Unit :=
  match checkRuleKey pd "dfm" .DfmRulesEmptyInMatchingPolicy with
  | .error e => .error e
  | .ok _ =>
    match checkRuleKey pd "drm" .DrmRulesEmptyInMatchingPolicy with
    | .error e => .error e
    | .ok _ => checkRuleKey pd "ifm" .IfmRulesEmptyInMatchingPolicy

/-- The policy loop of _set_matching_policy_settings over all named policies. -/
def checkPolicies : List (String × Json) → Except SettingsError Unit
  | [] => .ok ()
  | (_, pd) :: rest =>
    match checkPolicy pd with
    | .error e => .error e
    | .ok _ => checkPolicies rest

/-- Embedding of JsonSettings._set_matching_policy_settings (file_settings.py
lines 175-214).  The section is optional: when the matching_policy key is
absent the method silently does nothing, leaving the attribute None.  The
model covers JSON-object sections (the shape the loader's inputs take); the
python duck-typed traversal of non-dict sections is not modelled. -/
def setMatchingPolicy (j : Json) (s : JsonSettings) : Except SettingsError JsonSettings :=
  match j.objGet "matching_policy" with
  | none => .ok s
  | some (.obj fields) =>
    if fields.length = 0 then .error .MatchingPolicyEmpty
    else
      match checkPolicies fields with
      | .error e => .error e
      | .ok _ => .ok { s with matching_policy := some (.obj fields) }
  | some _ => .error .PyTypeError

/-- Embedding of JsonSettings.__init__ (file_settings.py lines 38-76) starting
from the parsed JSON dictionary: the file-existence and extension checks and
the JSON parsing of file_utils (not in src/) are outside the model. -/
def mkJsonSettings (j : Json) : Except SettingsError JsonSettings :=
  match setFileProcessing j defaultSettings with
  | .error e => .error e
  | .ok s1 =>
    match setDataSource j s1 with
    | .error e => .error e
    | .ok s2 => setMatchingPolicy j s2

end EsgSettings

namespace EsgMatching

/-- A concrete target descriptor used to exercise the matcher definitions. -/
def tgtW : DatasourceDescriptor :=
  ⟨"tgt", "tgt_tab", [("a", "tcol_a"), ("b", "tcol_b")],
   [("m_a", "tcol_a"), ("m_b", "tcol_b")], "id"⟩

/-- A concrete referential descriptor. -/
def refW : DatasourceDescriptor :=
  ⟨"ref", "ref_tab", [("a", "rcol_a"), ("b", "rcol_b")], [("r_a", "rcol_a")], "id"⟩

/-- A concrete no-matching descriptor. -/
def nmW : DatasourceDescriptor := ⟨"nm", "nm_tab", [], [], "id"⟩

/-- A concrete matching descriptor. -/
def matW : DatasourceDescriptor := ⟨"mat", "mat_tab", [], [], "id"⟩

/-- A residual row that the one-alias rule matches. -/
def rowW1 : Row := [("id", some "1"), ("tgt_name", some "tgt"), ("m_a", some "A"), ("m_b", some "B")]

/-- A residual row that the one-alias rule does not match. -/
def rowW2 : Row := [("id", some "2"), ("tgt_name", some "tgt"), ("m_a", some "Z"), ("m_b", some "B")]

/-- A residual row of another target dataset that would join-match. -/
def rowW3 : Row := [("id", some "3"), ("tgt_name", some "other"), ("m_a", some "A"), ("m_b", some "B")]

/-- A referential row. -/
def grefW : Row := [("rcol_a", some "A"), ("rcol_b", some "B")]

/-- A concrete matcher context with one drm rule over alias a. -/
def mW : MatcherCtx :=
  { tgt_source := tgtW, ref_source := refW, no_matching_source := nmW,
    matching_source := matW, matching_rules := [("r1", ["a"])], ref_rows := [grefW] }

/-- The initial concrete state: empty matching table, three residual rows. -/
def stW : DbState := ⟨[], [rowW1, rowW2, rowW3]⟩

/-- The state after the concrete run, read back from the run itself. -/
def stW1 : DbState := (execute_matching mW stW).2.toOption.getD ⟨[], []⟩

/-- A concrete policy having only dfm rules (no drm rule). -/
def policyNoDrmW : MatchingPolicy := ⟨[("dfm", [("r1", ["a"])])]⟩

/-- A concrete policy providing the drm rule of `mW`. -/
def policyDrmW : MatchingPolicy := ⟨[("drm", [("r1", ["a"])])]⟩

/-- The result of processing the concrete rule once, read back from the run. -/
def prW : DbState × List DbEvent :=
  (processRule mW stW ("r1", ["a"])).toOption.getD (stW, [])

/-- A fallback condition for reading results back. -/
def condFallback : Condition := .equalValue ⟨"", "", ""⟩ ""

/-- The conditions built for the one-alias rule, read back from the run. -/
def condRes1W : Option Condition × Condition :=
  (_get_conditions mW ["a"]).toOption.getD (none, condFallback)

/-- The join condition of the one-alias rule. -/
def jc1W : Condition := condRes1W.1.getD condFallback

/-- The where condition of the one-alias rule. -/
def wc1W : Condition := condRes1W.2

/-- The conditions built for the alias list a, b, read back from the run. -/
def condResAbW : Option Condition × Condition :=
  (_get_conditions mW ["a", "b"]).toOption.getD (none, condFallback)

/-- The join condition for aliases a, b. -/
def jcAbW : Condition := condResAbW.1.getD condFallback

/-- The where condition for aliases a, b. -/
def wcAbW : Condition := condResAbW.2

/-- The conditions built for the alias list b, a, read back from the run. -/
def condResBaW : Option Condition × Condition :=
  (_get_conditions mW ["b", "a"]).toOption.getD (none, condFallback)

/-- The join condition for aliases b, a. -/
def jcBaW : Condition := condResBaW.1.getD condFallback

/-- The where condition for aliases b, a. -/
def wcBaW : Condition := condResBaW.2

end EsgMatching

namespace EsgSettings

/-- A settings JSON with a data_source section but no matching_policy. -/
def jMissingPolicy : Json := .obj [("data_source", .obj [("name", .str "ds1")])]

/-- A settings JSON whose create_table string is the non-boolean expression 1. -/
def jCreateInt : Json := .obj [("data_source", .obj [("create_table", .str "1")])]

/-- A settings JSON whose create_table string is the lowercase literal true. -/
def jCreateTrueLower : Json := .obj [("data_source", .obj [("create_table", .str "true")])]

/-- A settings JSON whose create_table string is the lowercase literal false. -/
def jCreateFalseLower : Json := .obj [("data_source", .obj [("create_table", .str "false")])]

/-- A settings JSON carrying a filename_pattern value in file_processing. -/
def jPatternW : Json :=
  .obj [("file_processing", .obj [("file_path", .str "/data"), ("filename_pattern", .str "esg*")]),
        ("data_source", .obj [("name", .str "ds1")])]

/-- The settings object built from `jPatternW`, read back from the run. -/
def sPatternW : JsonSettings := (mkJsonSettings jPatternW).toOption.getD defaultSettings

theorem fpPath_keeps (sub : Json) (s : JsonSettings) :
    (fpPath sub s).filename_pattern = s.filename_pattern ∧
    (fpPath sub s).matching_policy = s.matching_policy := by
  unfold fpPath; split <;> exact ⟨rfl, rfl⟩

theorem fpExtension_keeps (sub : Json) (s : JsonSettings) :
    (fpExtension sub s).filename_pattern = s.filename_pattern ∧
    (fpExtension sub s).matching_policy = s.matching_policy := by
  unfold fpExtension; split <;> exact ⟨rfl, rfl⟩

theorem fpEncoding_keeps (sub : Json) (s : JsonSettings) :
    (fpEncoding sub s).filename_pattern = s.filename_pattern ∧
    (fpEncoding sub s).matching_policy = s.matching_policy := by
  unfold fpEncoding; split <;> exact ⟨rfl, rfl⟩

theorem fpSeparator_keeps (sub : Json) (s : JsonSettings) :
    (fpSeparator sub s).filename_pattern = s.filename_pattern ∧
    (fpSeparator sub s).matching_policy = s.matching_policy := by
  unfold fpSeparator; split <;> exact ⟨rfl, rfl⟩

theorem fpFilenamePattern_keeps (sub : Json) (s s' : JsonSettings)
    (h : fpFilenamePattern sub s = .ok s') :
    s'.filename_pattern = s.filename_pattern ∧ s'.matching_policy = s.matching_policy := by
  unfold fpFilenamePattern at h
  repeat' split at h
  all_goals first
    | exact Except.noConfusion h
    | (injection h with h; subst h; constructor <;> (try split) <;> rfl)

theorem setFileProcessing_keeps (j : Json) (s s' : JsonSettings)
    (h : setFileProcessing j s = .ok s') :
    s'.filename_pattern = s.filename_pattern ∧ s'.matching_policy = s.matching_policy := by
  unfold setFileProcessing at h
  cases hj : j.objGet "file_processing" with
  | none =>
    simp only [hj] at h
    injection h with h; subst h; exact ⟨rfl, rfl⟩
  | some sub =>
    simp only [hj] at h
    cases hfp : fpFilenamePattern sub (fpExtension sub (fpPath sub s)) with
    | error e => simp only [hfp] at h; exact Except.noConfusion h
    | ok s1 =>
      simp only [hfp] at h
      injection h with h; subst h
      have k1 := fpPath_keeps sub s
      have k2 := fpExtension_keeps sub (fpPath sub s)
      have k3 := fpFilenamePattern_keeps sub (fpExtension sub (fpPath sub s)) s1 hfp
      have k4 := fpEncoding_keeps sub s1
      have k5 := fpSeparator_keeps sub (fpEncoding sub s1)
      exact ⟨k5.1.trans (k4.1.trans (k3.1.trans (k2.1.trans k1.1))),
             k5.2.trans (k4.2.trans (k3.2.trans (k2.2.trans k1.2)))⟩

theorem dsName_keeps (sub : Json) (s : JsonSettings) :
    (dsName sub s).filename_pattern = s.filename_pattern ∧
    (dsName sub s).matching_policy = s.matching_policy := by
  unfold dsName; split <;> exact ⟨rfl, rfl⟩

theorem dsTableName_keeps (sub : Json) (s : JsonSettings) :
    (dsTableName sub s).filename_pattern = s.filename_pattern ∧
    (dsTableName sub s).matching_policy = s.matching_policy := by
  unfold dsTableName; split <;> exact ⟨rfl, rfl⟩

theorem dsMatchingId_keeps (sub : Json) (s : JsonSettings) :
    (dsMatchingId sub s).filename_pattern = s.filename_pattern ∧
    (dsMatchingId sub s).matching_policy = s.matching_policy := by
  unfold dsMatchingId; split <;> exact ⟨rfl, rfl⟩

theorem dsCreateTable_keeps (sub : Json) (s s' : JsonSettings)
    (h : dsCreateTable sub s = .ok s') :
    s'.filename_pattern = s.filename_pattern ∧ s'.matching_policy = s.matching_policy := by
  unfold dsCreateTable at h
  repeat' split at h
  all_goals first
    | exact Except.noConfusion h
    | (injection h with h; subst h; constructor <;> (try split) <;> rfl)

theorem dsIfTableExists_keeps (sub : Json) (s s' : JsonSettings)
    (h : dsIfTableExists sub s = .ok s') :
    s'.filename_pattern = s.filename_pattern ∧ s'.matching_policy = s.matching_policy := by
  unfold dsIfTableExists at h
  repeat' split at h
  all_goals first
    | exact Except.noConfusion h
    | (injection h with h; subst h; constructor <;> (try split) <;> rfl)

theorem dsPrimaryKeys_keeps (sub : Json) (s s' : JsonSettings)
    (h : dsPrimaryKeys sub s = .ok s') :
    s'.filename_pattern = s.filename_pattern ∧ s'.matching_policy = s.matching_policy := by
  unfold dsPrimaryKeys at h
  repeat' split at h
  all_goals first
    | exact Except.noConfusion h
    | (injection h with h; subst h; constructor <;> (try split) <;> rfl)

theorem dsAttributes_keeps (sub : Json) (s s' : JsonSettings)
    (h : dsAttributes sub s = .ok s') :
    s'.filename_pattern = s.filename_pattern ∧ s'.matching_policy = s.matching_policy := by
  unfold dsAttributes at h
  repeat' split at h
  all_goals first
    | exact Except.noConfusion h
    | (injection h with h; subst h; constructor <;> (try split) <;> rfl)

theorem dsMatchingRole_keeps (sub : Json) (s s' : JsonSettings)
    (h : dsMatchingRole sub s = .ok s') :
    s'.filename_pattern = s.filename_pattern ∧ s'.matching_policy = s.matching_policy := by
  unfold dsMatchingRole at h
  repeat' split at h
  all_goals first
    | exact Except.noConfusion h
    | (injection h with h; subst h; constructor <;> (try split) <;> rfl)

theorem dsMatchingAlias_keeps (sub : Json) (s s' : JsonSettings)
    (h : dsMatchingAlias sub s = .ok s') :
    s'.filename_pattern = s.filename_pattern ∧ s'.matching_policy = s.matching_policy := by
  unfold dsMatchingAlias at h
  repeat' split at h
  all_goals first
    | exact Except.noConfusion h
    | (injection h with h; subst h; constructor <;> (try split) <;> rfl)

theorem dsMapToMatching_keeps (sub : Json) (s s' : JsonSettings)
    (h : dsMapToMatching sub s = .ok s') :
    s'.filename_pattern = s.filename_pattern ∧ s'.matching_policy = s.matching_policy := by
  unfold dsMapToMatching at h
  repeat' split at h
  all_goals first
    | exact Except.noConfusion h
    | (injection h with h; subst h; constructor <;> (try split) <;> rfl)

theorem dsMapIndirect_keeps (sub : Json) (s s' : JsonSettings)
    (h : dsMapIndirect sub s = .ok s') :
    s'.filename_pattern = s.filename_pattern ∧ s'.matching_policy = s.matching_policy := by
  unfold dsMapIndirect at h
  repeat' split at h
  all_goals first
    | exact Except.noConfusion h
    | (injection h with h; subst h; constructor <;> (try split) <;> rfl)

theorem setDataSource_keeps (j : Json) (s s' : JsonSettings)
    (h : setDataSource j s = .ok s') :
    s'.filename_pattern = s.filename_pattern ∧ s'.matching_policy = s.matching_policy := by
  unfold setDataSource at h
  cases hj : j.objGet "data_source" with
  | none => simp only [hj] at h; exact Except.noConfusion h
  | some sub =>
    simp only [hj] at h
    cases h1 : dsCreateTable sub (dsTableName sub (dsName sub s)) with
    | error e => simp only [h1] at h; exact Except.noConfusion h
    | ok s1 =>
      simp only [h1] at h
      cases h2 : dsIfTableExists sub s1 with
      | error e => simp only [h2] at h; exact Except.noConfusion h
      | ok s2 =>
        simp only [h2] at h
        cases h3 : dsPrimaryKeys sub s2 with
        | error e => simp only [h3] at h; exact Except.noConfusion h
        | ok s3 =>
          simp only [h3] at h
          cases h4 : dsAttributes sub s3 with
          | error e => simp only [h4] at h; exact Except.noConfusion h
          | ok s4 =>
            simp only [h4] at h
            cases h5 : dsMatchingRole sub s4 with
            | error e => simp only [h5] at h; exact Except.noConfusion h
            | ok s5 =>
              simp only [h5] at h
              cases h6 : dsMatchingAlias sub (dsMatchingId sub s5) with
              | error e => simp only [h6] at h; exact Except.noConfusion h
              | ok s6 =>
                simp only [h6] at h
                cases h7 : dsMapToMatching sub s6 with
                | error e => simp only [h7] at h; exact Except.noConfusion h
                | ok s7 =>
                  simp only [h7] at h
                  have k0a := dsName_keeps sub s
                  have k0b := dsTableName_keeps sub (dsName sub s)
                  have k1 := dsCreateTable_keeps sub (dsTableName sub (dsName sub s)) s1 h1
                  have k2 := dsIfTableExists_keeps sub s1 s2 h2
                  have k3 := dsPrimaryKeys_keeps sub s2 s3 h3
                  have k4 := dsAttributes_keeps sub s3 s4 h4
                  have k5 := dsMatchingRole_keeps sub s4 s5 h5
                  have k5b := dsMatchingId_keeps sub s5
                  have k6 := dsMatchingAlias_keeps sub (dsMatchingId sub s5) s6 h6
                  have k7 := dsMapToMatching_keeps sub s6 s7 h7
                  have k8 := dsMapIndirect_keeps sub s7 s' h
                  constructor
                  · rw [k8.1, k7.1, k6.1, k5b.1, k5.1, k4.1, k3.1, k2.1, k1.1, k0b.1, k0a.1]
                  · rw [k8.2, k7.2, k6.2, k5b.2, k5.2, k4.2, k3.2, k2.2, k1.2, k0b.2, k0a.2]

theorem setMatchingPolicy_keeps_fp (j : Json) (s s' : JsonSettings)
    (h : setMatchingPolicy j s = .ok s') :
    s'.filename_pattern = s.filename_pattern := by
  unfold setMatchingPolicy at h
  repeat' split at h
  all_goals first
    | exact Except.noConfusion h
    | (injection h with h; subst h; rfl)

/-- C10: whenever construction succeeds, the filename_pattern attribute is
still the empty string: the filename_pattern branch of
_set_file_processing_settings assigns file_path instead. -/
theorem settings_filename_pattern_never_assigned (j : Json) (s : JsonSettings)
    (h : mkJsonSettings j = .ok s) : s.filename_pattern = Json.str "" := by
  unfold mkJsonSettings at h
  cases h1 : setFileProcessing j defaultSettings with
  | error e => simp only [h1] at h; exact Except.noConfusion h
  | ok s1 =>
    simp only [h1] at h
    cases h2 : setDataSource j s1 with
    | error e => simp only [h2] at h; exact Except.noConfusion h
    | ok s2 =>
      simp only [h2] at h
      have k1 := setFileProcessing_keeps j defaultSettings s1 h1
      have k2 := setDataSource_keeps j s1 s2 h2
      have k3 := setMatchingPolicy_keeps_fp j s2 s h
      rw [k3, k2.1, k1.1]
      rfl

/-- C10 witness: a settings JSON whose file_processing section carries a
filename_pattern value still yields the empty filename_pattern. -/
theorem settings_filename_pattern_never_assigned_witness :
    sPatternW.filename_pattern = Json.str "" :=
  settings_filename_pattern_never_assigned jPatternW sPatternW rfl

/-- C8 counterexample: a parsed settings JSON with a data_source section but
no matching_policy section is accepted (no typed error is raised), refuting
the claim that a missing matching_policy section makes construction fail. -/
theorem settings_missing_policy_silently_accepted :
    Json.objGet jMissingPolicy "matching_policy" = none ∧
    ∃ s, mkJsonSettings jMissingPolicy = .ok s :=
  ⟨rfl, (mkJsonSettings jMissingPolicy).toOption.getD defaultSettings, by rfl⟩

/-- C8 amended: a missing data_source section raises
DataSourceSettingsNotDefined (once the file_processing section has been
processed without error), while a missing matching_policy section is accepted
silently, leaving the matching_policy attribute None. -/
theorem settings_required_sections_amended (j : Json) (s1 : JsonSettings)
    (hfp : setFileProcessing j defaultSettings = .ok s1) :
    (Json.objGet j "data_source" = none →
      mkJsonSettings j = .error .DataSourceSettingsNotDefined) ∧
    (∀ s, Json.objGet j "matching_policy" = none → mkJsonSettings j = .ok s →
      s.matching_policy = none) := by
  constructor
  · intro hds
    unfold mkJsonSettings
    simp only [hfp]
    unfold setDataSource
    simp only [hds]
  · intro s hmp h
    unfold mkJsonSettings at h
    simp only [hfp] at h
    cases h2 : setDataSource j s1 with
    | error e => simp only [h2] at h; exact Except.noConfusion h
    | ok s2 =>
      simp only [h2] at h
      unfold setMatchingPolicy at h
      simp only [hmp] at h
      injection h with h; subst h
      have k1 := setFileProcessing_keeps j defaultSettings s1 hfp
      have k2 := setDataSource_keeps j s1 s2 h2
      rw [k2.2, k1.2]
      rfl

/-- C8 amended witness: the empty settings JSON processes its (absent)
file_processing section fine and then fails with
DataSourceSettingsNotDefined. -/
theorem settings_required_sections_amended_witness :
    mkJsonSettings (Json.obj []) = .error .DataSourceSettingsNotDefined :=
  (settings_required_sections_amended (Json.obj []) defaultSettings rfl).1 rfl

/-- C9: the create_table configuration string is interpreted by python eval:
the non-boolean expression 1 is accepted silently and the evaluated integer
is assigned to datasource_create_table, while the lowercase strings true and
false are undefined python names, so they raise NameError instead of being
parsed as booleans; only the capitalised literals evaluate to booleans. -/
theorem settings_create_table_dynamic_eval :
    (∃ s, mkJsonSettings jCreateInt = .ok s ∧
      s.datasource_create_table = PyValue.int 1) ∧
    mkJsonSettings jCreateTrueLower = .error .PyNameError ∧
    mkJsonSettings jCreateFalseLower = .error .PyNameError ∧
    pyEval "True" = .ok (.bool true) ∧ pyEval "False" = .ok (.bool false) := by
  refine ⟨⟨(mkJsonSettings jCreateInt).toOption.getD defaultSettings, ?_, ?_⟩, ?_, ?_, ?_, ?_⟩ <;> rfl

end EsgSettings

namespace EsgMatching

/-- C1: when the policy defines no drm rule, running the residual matcher
fails fast with the typed configuration error (the concrete exception class
DirectResidualMatchingNotInPolicy, the spec's PolicyMissingRuleType) and the
statement trace is empty: zero statements are executed. -/
theorem drm_missing_rule_type_fails_fast (policy : MatchingPolicy) (m : MatcherCtx)
    (st : DbState) (h : policy.has_rule_type matching_type_drm = false) :
    run_matcher policy m st = ([], .error .DirectResidualMatchingNotInPolicy) := by
  unfold run_matcher _can_matcher_be_used
  simp [h]

/-- C1 witness: a policy holding only dfm rules makes the drm matcher fail
with an empty trace. -/
theorem drm_missing_rule_type_fails_fast_witness :
    run_matcher policyNoDrmW mW stW = ([], .error .DirectResidualMatchingNotInPolicy) :=
  drm_missing_rule_type_fails_fast policyNoDrmW mW stW (by rfl)

/-- C7: the matched-row projection is the literal columns, then the
no-matching columns named by the target's matching attributes, then the
referential columns mapped to the matching schema; the name list is built the
same way, has the same length, and the i-th name is the exported name of the
i-th column. -/
theorem drm_cols_match_alignment (m : MatcherCtx) (rule_name : String) :
    (_get_cols_match m rule_name).1 =
      (_get_literal_cols_match rule_name).1 ++
      m.no_matching_source.get_db_cols_with_same_name
        m.tgt_source.get_name_cols_mapped_to_matching ++
      m.ref_source.get_db_cols_mapped_to_matching ∧
    (_get_cols_match m rule_name).2 =
      (_get_literal_cols_match rule_name).2 ++
      m.tgt_source.get_name_cols_mapped_to_matching ++
      m.ref_source.get_name_cols_mapped_to_matching ∧
    ((_get_cols_match m rule_name).1).map SelectCol.label = (_get_cols_match m rule_name).2 ∧
    ((_get_cols_match m rule_name).1).length = ((_get_cols_match m rule_name).2).length := by
  have hmap : ((_get_cols_match m rule_name).1).map SelectCol.label =
      (_get_cols_match m rule_name).2 := by
    simp [_get_cols_match, _get_literal_cols_match,
      DatasourceDescriptor.get_db_cols_with_same_name,
      DatasourceDescriptor.get_db_cols_mapped_to_matching,
      DatasourceDescriptor.get_name_cols_mapped_to_matching,
      SelectCol.label, List.map_map, Function.comp_def]
  refine ⟨rfl, rfl, hmap, ?_⟩
  rw [← hmap]
  exact (List.length_map _ _).symm

theorem leafFor_isEqLeaf (m : MatcherCtx) (a : String) (leaf : Condition)
    (h : leafFor m a = some leaf) : leaf.isEqLeaf = true ∧ leaf.leaves = [leaf] := by
  unfold leafFor at h
  repeat' split at h
  all_goals first
    | exact Option.noConfusion h
    | (injection h with h; subst h; exact ⟨rfl, rfl⟩)

theorem resolveLeaves_length (m : MatcherCtx) :
    ∀ (attrs : List String) (ls : List Condition),
      resolveLeaves m attrs = some ls → ls.length = attrs.length := by
  intro attrs
  induction attrs with
  | nil =>
    intro ls h
    unfold resolveLeaves at h
    injection h with h
    subst h
    rfl
  | cons a rest ih =>
    intro ls h
    unfold resolveLeaves at h
    cases hl : leafFor m a with
    | none => rw [hl] at h; exact Option.noConfusion h
    | some leaf =>
      simp only [hl] at h
      cases hr : resolveLeaves m rest with
      | none => rw [hr] at h; exact Option.noConfusion h
      | some ls1 =>
        simp only [hr] at h
        injection h with h
        subst h
        simp [ih ls1 hr]

theorem resolveLeaves_eq_filterMap (m : MatcherCtx) :
    ∀ (attrs : List String) (ls : List Condition),
      resolveLeaves m attrs = some ls → ls = attrs.filterMap (leafFor m) := by
  intro attrs
  induction attrs with
  | nil =>
    intro ls h
    unfold resolveLeaves at h
    injection h with h
    subst h
    rfl
  | cons a rest ih =>
    intro ls h
    unfold resolveLeaves at h
    cases hl : leafFor m a with
    | none => rw [hl] at h; exact Option.noConfusion h
    | some leaf =>
      simp only [hl] at h
      cases hr : resolveLeaves m rest with
      | none => rw [hr] at h; exact Option.noConfusion h
      | some ls1 =>
        simp only [hr] at h
        injection h with h
        subst h
        simp [List.filterMap_cons, hl, ih ls1 hr]

theorem buildJoin_leaves (m : MatcherCtx) (attrs : List String) :
    ∀ (acc : Option Condition) (jc : Condition),
      buildJoinCondition m attrs acc = .ok (some jc) →
      ∃ ls, resolveLeaves m attrs = some ls ∧ (∀ c ∈ ls, c.isEqLeaf = true) ∧
        jc.leaves = ls.reverse ++ accLeavesOpt acc := by
  induction attrs with
  | nil =>
    intro acc jc h
    unfold buildJoinCondition at h
    injection h with h
    subst h
    exact ⟨[], rfl, by simp, by simp [accLeavesOpt]⟩
  | cons a rest ih =>
    intro acc jc h
    unfold buildJoinCondition at h
    cases hl : leafFor m a with
    | none => rw [hl] at h; exact Except.noConfusion h
    | some leaf =>
      simp only [hl] at h
      have hleaf := leafFor_isEqLeaf m a leaf hl
      obtain ⟨ls, hres, hleafs, hlv⟩ := ih (some (joinAcc acc leaf)) jc h
      have hacc : accLeavesOpt (some (joinAcc acc leaf)) = leaf.leaves ++ accLeavesOpt acc := by
        cases acc with
        | none => simp [accLeavesOpt, joinAcc]
        | some c0 => simp [accLeavesOpt, joinAcc, Condition.leaves]
      refine ⟨leaf :: ls, ?_, ?_, ?_⟩
      · unfold resolveLeaves
        simp only [hl, hres]
      · intro c hc
        cases List.mem_cons.mp hc with
        | inl hh => rw [hh]; exact hleaf.1
        | inr hh => exact hleafs c hh
      · rw [hlv, hacc, hleaf.2]
        simp

theorem evalCond_eq_all_leaves (ft jt : String) (l r : Row) (c : Condition) :
    evalCond ft jt l r c = c.leaves.all (evalCond ft jt l r) := by
  induction c with
  | equalCols a b => simp [Condition.leaves]
  | equalValue col v => simp [Condition.leaves]
  | and c1 c2 ih1 ih2 =>
    rw [show (Condition.and c1 c2).leaves = c1.leaves ++ c2.leaves from rfl]
    rw [List.all_append, ← ih1, ← ih2]
    rfl

theorem all_of_perm {p : Condition → Bool} {l1 l2 : List Condition}
    (h : l1.Perm l2) : l1.all p = l2.all p := by
  cases hx : l1.all p with
  | true =>
    have := List.all_eq_true.mp hx
    exact (List.all_eq_true.mpr (fun x hm => this x (h.mem_iff.mpr hm))).symm
  | false =>
    cases hy : l2.all p with
    | true =>
      have := List.all_eq_true.mp hy
      rw [List.all_eq_true.mpr (fun x hm => this x (h.mem_iff.mp hm))] at hx
      exact Bool.noConfusion hx
    | false => rfl

/-- C2: for a rule of N attribute aliases the join condition built by
_get_conditions is the conjunction of exactly N column-equality leaves, one
per alias (leaves are accumulated, never discarded), and its evaluation
agrees with the condition built from any permutation of the aliases. -/
theorem drm_join_condition_conjunction (m : MatcherCtx) (attrs attrs2 : List String)
    (jc jc2 w w2 : Condition)
    (h1 : _get_conditions m attrs = .ok (some jc, w))
    (h2 : _get_conditions m attrs2 = .ok (some jc2, w2))
    (hperm : attrs.Perm attrs2) :
    jc.leaves.length = attrs.length ∧
    (∃ ls, resolveLeaves m attrs = some ls ∧ (∀ c ∈ ls, c.isEqLeaf = true) ∧
      jc.leaves = ls.reverse) ∧
    ∀ ft jt l r, evalCond ft jt l r jc = evalCond ft jt l r jc2 := by
  unfold _get_conditions at h1 h2
  cases hb1 : buildJoinCondition m attrs none with
  | error e => rw [hb1] at h1; exact Except.noConfusion h1
  | ok o1 =>
    rw [hb1] at h1
    injection h1 with h1
    injection h1 with h1a h1b
    cases hb2 : buildJoinCondition m attrs2 none with
    | error e => rw [hb2] at h2; exact Except.noConfusion h2
    | ok o2 =>
      rw [hb2] at h2
      injection h2 with h2
      injection h2 with h2a h2b
      subst h1a
      subst h2a
      obtain ⟨ls1, hres1, hleafs1, hlv1⟩ := buildJoin_leaves m attrs none jc hb1
      obtain ⟨ls2, hres2, hleafs2, hlv2⟩ := buildJoin_leaves m attrs2 none jc2 hb2
      simp only [accLeavesOpt, List.append_nil] at hlv1 hlv2
      have hlperm : ls1.Perm ls2 := by
        rw [resolveLeaves_eq_filterMap m attrs ls1 hres1,
            resolveLeaves_eq_filterMap m attrs2 ls2 hres2]
        exact hperm.filterMap (leafFor m)
      refine ⟨?_, ⟨ls1, hres1, hleafs1, hlv1⟩, ?_⟩
      · rw [hlv1, List.length_reverse]
        exact resolveLeaves_length m attrs ls1 hres1
      · intro ft jt l r
        rw [evalCond_eq_all_leaves ft jt l r jc, evalCond_eq_all_leaves ft jt l r jc2,
            hlv1, hlv2]
        exact all_of_perm ((ls1.reverse_perm).trans (hlperm.trans (ls2.reverse_perm).symm))

end EsgMatching

namespace EsgMatching

/-- C2 witness: the two-alias rule of the concrete context yields two leaves,
and the conditions built from the two alias orderings evaluate alike. -/
theorem drm_join_condition_conjunction_witness :
    jcAbW.leaves.length = (["a", "b"] : List String).length ∧
    evalCond "nm_tab" "ref_tab" rowW1 grefW jcAbW =
      evalCond "nm_tab" "ref_tab" rowW1 grefW jcBaW := by
  have h := drm_join_condition_conjunction mW ["a", "b"] ["b", "a"] jcAbW jcBaW wcAbW wcBaW
    (by rfl) (by rfl) (by decide)
  exact ⟨h.1, h.2.2 "nm_tab" "ref_tab" rowW1 grefW⟩

theorem mem_crossJoin {α β : Type} (xs : List α) (ys : List β) (p : α × β) :
    p ∈ crossJoin xs ys ↔ p.1 ∈ xs ∧ p.2 ∈ ys := by
  cases p with
  | mk a b =>
    constructor
    · intro h
      obtain ⟨x, hx, hmem⟩ := List.mem_flatMap.mp h
      obtain ⟨y, hy, hxy⟩ := List.mem_map.mp hmem
      cases hxy
      exact ⟨hx, hy⟩
    · rintro ⟨ha, hb⟩
      exact List.mem_flatMap.mpr ⟨a, ha, List.mem_map.mpr ⟨b, hb, rfl⟩⟩

theorem pairsOf_eq_matchedPairs (m : MatcherCtx) (st : DbState) (cs : List SelectCol)
    (jc wc : Condition) (hrt : m.ref_source.table ≠ m.no_matching_source.table) :
    SelectStm.pairsOf ⟨cs, m.no_matching_source.table, m.ref_source.table, jc, wc⟩ m st =
      matchedPairs m st jc wc := by
  unfold SelectStm.pairsOf matchedPairs tableRows
  simp [hrt]

theorem mem_matchedPairs (m : MatcherCtx) (st : DbState) (jc wc : Condition) (p : Row × Row) :
    p ∈ matchedPairs m st jc wc ↔
      p.1 ∈ st.noMatching ∧ p.2 ∈ m.ref_rows ∧
      evalCond m.no_matching_source.table m.ref_source.table p.1 p.2 jc = true ∧
      evalCond m.no_matching_source.table m.ref_source.table p.1 p.2 wc = true := by
  unfold matchedPairs
  rw [List.mem_filter, mem_crossJoin]
  simp [and_assoc]

theorem matchedRow_iff (m : MatcherCtx) (jc wc : Condition) (r : Row) :
    matchedRow m jc wc r = true ↔
      ∃ g ∈ m.ref_rows,
        evalCond m.no_matching_source.table m.ref_source.table r g jc = true ∧
        evalCond m.no_matching_source.table m.ref_source.table r g wc = true := by
  unfold matchedRow
  rw [List.any_eq_true]
  simp

theorem applyEvent_insEvent (m : MatcherCtx) (st : DbState) (rule_name : String)
    (jc wc : Condition) (hmt : m.matching_source.table ≠ m.no_matching_source.table) :
    (applyEvent m st (insEvent m rule_name jc wc)).noMatching = st.noMatching ∧
    (applyEvent m st (insEvent m rule_name jc wc)).matching =
      st.matching ++ ((selStmOf m rule_name jc wc).pairsOf m st).map
        (fun p => ((m.matching_source.get_db_cols_with_same_name
            (_get_cols_match m rule_name).2).map SelectCol.label).zip
          ((selStmOf m rule_name jc wc).project p)) := by
  unfold applyEvent insEvent
  constructor
  · show (if m.matching_source.table = m.no_matching_source.table then _ else st.noMatching) =
      st.noMatching
    exact if_neg hmt
  · simp

theorem applyEvent_delEvent (m : MatcherCtx) (st : DbState) (jc wc : Condition) :
    (applyEvent m st (delEvent m jc wc)).matching = st.matching ∧
    (applyEvent m st (delEvent m jc wc)).noMatching =
      st.noMatching.filter
        (fun r => !(inIds (Row.val r m.no_matching_source.matching_id) (delIds m st jc wc))) := by
  unfold applyEvent delEvent delIds
  exact ⟨rfl, by simp⟩

theorem delIds_eq (m : MatcherCtx) (st : DbState) (jc wc : Condition)
    (hrt : m.ref_source.table ≠ m.no_matching_source.table) :
    delIds m st jc wc =
      (matchedPairs m st jc wc).map
        (fun p => Row.val p.1 m.no_matching_source.matching_id) := by
  unfold delIds
  rw [show (subStmOf m jc wc).pairsOf m st = matchedPairs m st jc wc from
    pairsOf_eq_matchedPairs m st _ jc wc hrt]
  apply List.map_congr_left
  intro p hp
  unfold subStmOf SelectStm.firstVal SelectStm.colVal colCell
  simp [DatasourceDescriptor.get_table_column]

theorem delIds_noMatching_only (m : MatcherCtx) (st st' : DbState) (jc wc : Condition)
    (hrt : m.ref_source.table ≠ m.no_matching_source.table)
    (hnm : st'.noMatching = st.noMatching) :
    delIds m st' jc wc = delIds m st jc wc := by
  rw [delIds_eq m st' jc wc hrt, delIds_eq m st jc wc hrt]
  unfold matchedPairs
  rw [hnm]

theorem processRule_ok (m : MatcherCtx) (st : DbState) (rule : String × List String)
    (pr : DbState × List DbEvent) (h : processRule m st rule = .ok pr) :
    ∃ jc wc, _get_conditions m rule.2 = .ok (some jc, wc) ∧
      pr.2 = [insEvent m rule.1 jc wc, delEvent m jc wc] ∧
      pr.1 = replay m st pr.2 := by
  unfold processRule at h
  cases hc : _get_conditions m rule.2 with
  | error e => rw [hc] at h; exact Except.noConfusion h
  | ok q =>
    obtain ⟨jcOpt, wc⟩ := q
    cases jcOpt with
    | none => simp only [hc] at h; exact Except.noConfusion h
    | some jc =>
      simp only [hc] at h
      injection h with h
      subst h
      exact ⟨jc, wc, rfl, rfl, rfl⟩

theorem get_conditions_where (m : MatcherCtx) (attrs : List String)
    (o : Option Condition) (wc : Condition)
    (h : _get_conditions m attrs = .ok (o, wc)) : wc = target_where_condition m := by
  unfold _get_conditions at h
  cases hb : buildJoinCondition m attrs none with
  | error e => rw [hb] at h; exact Except.noConfusion h
  | ok o1 =>
    rw [hb] at h
    injection h with h
    injection h with h1 h2
    exact h2.symm

theorem inIds_complete (m : MatcherCtx) (st : DbState) (jc wc : Condition) (r : Row)
    (hrt : m.ref_source.table ≠ m.no_matching_source.table)
    (hr : r ∈ st.noMatching)
    (hsr : (Row.val r m.no_matching_source.matching_id).isSome = true)
    (hm : matchedRow m jc wc r = true) :
    inIds (Row.val r m.no_matching_source.matching_id) (delIds m st jc wc) = true := by
  obtain ⟨a, ha⟩ := Option.isSome_iff_exists.mp hsr
  obtain ⟨g, hg, hjc, hwc⟩ := (matchedRow_iff m jc wc r).mp hm
  rw [ha]
  unfold inIds
  rw [decide_eq_true_eq, delIds_eq m st jc wc hrt]
  apply List.mem_map.mpr
  refine ⟨(r, g), ?_, ha⟩
  exact (mem_matchedPairs m st jc wc (r, g)).mpr ⟨hr, hg, hjc, hwc⟩

theorem inIds_sound (m : MatcherCtx) (st : DbState) (jc wc : Condition) (r : Row)
    (hrt : m.ref_source.table ≠ m.no_matching_source.table)
    (hr : r ∈ st.noMatching)
    (hnd : (st.noMatching.map (fun x => Row.val x m.no_matching_source.matching_id)).Nodup)
    (h : inIds (Row.val r m.no_matching_source.matching_id) (delIds m st jc wc) = true) :
    matchedRow m jc wc r = true := by
  unfold inIds at h
  cases hv : Row.val r m.no_matching_source.matching_id with
  | none => rw [hv] at h; exact Bool.noConfusion h
  | some a =>
    rw [hv] at h
    have hmem : (some a : Cell) ∈ delIds m st jc wc := of_decide_eq_true h
    rw [delIds_eq m st jc wc hrt] at hmem
    obtain ⟨p, hp, hpa⟩ := List.mem_map.mp hmem
    obtain ⟨hp1, hp2, hjc, hwc⟩ := (mem_matchedPairs m st jc wc p).mp hp
    have hpr : p.1 = r :=
      List.inj_on_of_nodup_map hnd hp1 hr (by rw [hpa, hv])
    rw [← hpr]
    exact (matchedRow_iff m jc wc p.1).mpr ⟨p.2, hp2, hjc, hwc⟩

theorem processRule_noMatching (m : MatcherCtx) (st : DbState) (rule : String × List String)
    (pr : DbState × List DbEvent)
    (hmt : m.matching_source.table ≠ m.no_matching_source.table)
    (hrt : m.ref_source.table ≠ m.no_matching_source.table)
    (h : processRule m st rule = .ok pr) (jc wc : Condition)
    (hc : _get_conditions m rule.2 = .ok (some jc, wc)) :
    pr.1.noMatching = st.noMatching.filter
      (fun r => !(inIds (Row.val r m.no_matching_source.matching_id) (delIds m st jc wc))) := by
  obtain ⟨jc', wc', hc', hev, hst⟩ := processRule_ok m st rule pr h
  rw [hc] at hc'
  injection hc' with hc'
  injection hc' with hc1 hc2
  injection hc1 with hc1
  subst hc1
  subst hc2
  have hstep : pr.1 = applyEvent m (applyEvent m st (insEvent m rule.1 jc wc)) (delEvent m jc wc) := by
    rw [hst, hev]; rfl
  have hins := (applyEvent_insEvent m st rule.1 jc wc hmt).1
  have hdel := (applyEvent_delEvent m (applyEvent m st (insEvent m rule.1 jc wc)) jc wc).2
  rw [hstep, hdel, hins,
      delIds_noMatching_only m st (applyEvent m st (insEvent m rule.1 jc wc)) jc wc hrt hins]

theorem processRule_purge (m : MatcherCtx) (st : DbState) (rule : String × List String)
    (pr : DbState × List DbEvent) (jc wc : Condition)
    (hmt : m.matching_source.table ≠ m.no_matching_source.table)
    (hrt : m.ref_source.table ≠ m.no_matching_source.table)
    (hsome : ∀ r ∈ st.noMatching, (Row.val r m.no_matching_source.matching_id).isSome = true)
    (hnd : (st.noMatching.map (fun x => Row.val x m.no_matching_source.matching_id)).Nodup)
    (h : processRule m st rule = .ok pr)
    (hc : _get_conditions m rule.2 = .ok (some jc, wc)) :
    pr.1.noMatching = st.noMatching.filter (fun r => !(matchedRow m jc wc r)) := by
  rw [processRule_noMatching m st rule pr hmt hrt h jc wc hc]
  apply List.filter_congr
  intro r hr
  have : inIds (Row.val r m.no_matching_source.matching_id) (delIds m st jc wc) =
      matchedRow m jc wc r := by
    cases hm : matchedRow m jc wc r with
    | true => exact inIds_complete m st jc wc r hrt hr (hsome r hr) hm
    | false =>
      cases hi : inIds (Row.val r m.no_matching_source.matching_id) (delIds m st jc wc) with
      | false => rfl
      | true =>
        rw [inIds_sound m st jc wc r hrt hr hnd hi] at hm
        exact Bool.noConfusion hm
  rw [this]

/-- C3: after a rule is processed, the no-matching table holds exactly the
rows that did not satisfy the rule's join and where conditions against any
referential row (matched rows deleted, only matched rows deleted, under the
data-model invariant that the matching-id column holds distinct non-null
values), and the delete statement's subquery selects the matching-id column
under the very join and where conditions used for the matching insert. -/
theorem drm_residual_purge_exact (m : MatcherCtx) (st : DbState)
    (rule : String × List String) (pr : DbState × List DbEvent)
    (hmt : m.matching_source.table ≠ m.no_matching_source.table)
    (hrt : m.ref_source.table ≠ m.no_matching_source.table)
    (hsome : ∀ r ∈ st.noMatching, (Row.val r m.no_matching_source.matching_id).isSome = true)
    (hnd : (st.noMatching.map (fun x => Row.val x m.no_matching_source.matching_id)).Nodup)
    (h : processRule m st rule = .ok pr) :
    ∃ jc wc, _get_conditions m rule.2 = .ok (some jc, wc) ∧
      pr.2 = [insEvent m rule.1 jc wc, delEvent m jc wc] ∧
      (∃ names sel sub,
        pr.2 = [.insertFromSelect m.matching_source.table names sel,
                .deleteWhereIn m.no_matching_source.table m.no_matching_source.matching_id sub] ∧
        sub.joinOn = sel.joinOn ∧ sub.whereC = sel.whereC ∧
        sub.cols = [SelectCol.phys
          (m.no_matching_source.get_table_column m.no_matching_source.matching_id)]) ∧
      pr.1.noMatching = st.noMatching.filter (fun r => !(matchedRow m jc wc r)) := by
  obtain ⟨jc, wc, hc, hev, hst⟩ := processRule_ok m st rule pr h
  refine ⟨jc, wc, hc, hev,
    ⟨(m.matching_source.get_db_cols_with_same_name (_get_cols_match m rule.1).2).map
        SelectCol.label,
      selStmOf m rule.1 jc wc, subStmOf m jc wc, by rw [hev]; rfl, rfl, rfl, rfl⟩,
    processRule_purge m st rule pr jc wc hmt hrt hsome hnd h hc⟩

/-- C3 witness: on the concrete context the rule purges exactly the matched
residual row. -/
theorem drm_residual_purge_exact_witness :
    prW.1.noMatching = stW.noMatching.filter (fun r => !(matchedRow mW jc1W wc1W r)) := by
  obtain ⟨jc, wc, hc, hev, hstruct, hfil⟩ :=
    drm_residual_purge_exact mW stW ("r1", ["a"]) prW (by decide) (by decide) (by decide)
      (by decide) (by rfl)
  have he : _get_conditions mW ["a"] = .ok (some jc1W, wc1W) := by rfl
  rw [hc] at he
  injection he with he
  injection he with hea heb
  injection hea with hea
  rw [hfil, hea, heb]

theorem evalWhere_target (m : MatcherCtx) (l g : Row)
    (h : evalCond m.no_matching_source.table m.ref_source.table l g
      (target_where_condition m) = true) :
    Row.val l "tgt_name" = some m.tgt_source.name := by
  unfold target_where_condition DatasourceDescriptor.get_table_column at h
  rw [show evalCond m.no_matching_source.table m.ref_source.table l g
        (.equalValue ⟨m.no_matching_source.table, "tgt_name", "tgt_name"⟩ m.tgt_source.name) =
      (match colCell m.no_matching_source.table m.ref_source.table l g
          ⟨m.no_matching_source.table, "tgt_name", "tgt_name"⟩ with
        | some x => decide (x = m.tgt_source.name)
        | none => false) from rfl] at h
  rw [show colCell m.no_matching_source.table m.ref_source.table l g
        ⟨m.no_matching_source.table, "tgt_name", "tgt_name"⟩ =
      Row.val l "tgt_name" from by unfold colCell; rw [if_pos rfl]] at h
  cases hv : Row.val l "tgt_name" with
  | none =>
    rw [hv] at h
    exact Bool.noConfusion (show false = true from h)
  | some x =>
    rw [hv] at h
    rw [of_decide_eq_true (show decide (x = m.tgt_source.name) = true from h)]

/-- C6: the where condition built by _get_conditions is exactly the equality
of the no-matching table's tgt_name column with the target datasource's name;
consequently every matched pair's residual row belongs to the current target,
and a residual row of another target dataset (distinct ids assumed) is never
deleted by the rule. -/
theorem drm_target_filter (m : MatcherCtx) (st : DbState)
    (rule : String × List String) (pr : DbState × List DbEvent)
    (hmt : m.matching_source.table ≠ m.no_matching_source.table)
    (hrt : m.ref_source.table ≠ m.no_matching_source.table)
    (hnd : (st.noMatching.map (fun x => Row.val x m.no_matching_source.matching_id)).Nodup)
    (h : processRule m st rule = .ok pr) :
    (∀ o wc, _get_conditions m rule.2 = .ok (o, wc) → wc = target_where_condition m) ∧
    ∃ jc, _get_conditions m rule.2 = .ok (some jc, target_where_condition m) ∧
      (∀ p ∈ matchedPairs m st jc (target_where_condition m),
        Row.val p.1 "tgt_name" = some m.tgt_source.name) ∧
      (∀ r ∈ st.noMatching, Row.val r "tgt_name" ≠ some m.tgt_source.name →
        r ∈ pr.1.noMatching) := by
  obtain ⟨jc, wc, hc, hev, hst⟩ := processRule_ok m st rule pr h
  have hwc := get_conditions_where m rule.2 (some jc) wc hc
  subst hwc
  refine ⟨fun o wc' hc' => get_conditions_where m rule.2 o wc' hc', jc, hc, ?_, ?_⟩
  · intro p hp
    obtain ⟨hp1, hp2, hjc, hwcp⟩ :=
      (mem_matchedPairs m st jc (target_where_condition m) p).mp hp
    exact evalWhere_target m p.1 p.2 hwcp
  · intro r hr hneq
    rw [processRule_noMatching m st rule pr hmt hrt h jc (target_where_condition m) hc]
    apply List.mem_filter.mpr
    refine ⟨hr, ?_⟩
    cases hi : inIds (Row.val r m.no_matching_source.matching_id)
        (delIds m st jc (target_where_condition m)) with
    | false => rfl
    | true =>
      have hm := inIds_sound m st jc (target_where_condition m) r hrt hr hnd hi
      obtain ⟨g, hg, hjcg, hwcg⟩ := (matchedRow_iff m jc (target_where_condition m) r).mp hm
      exact absurd (evalWhere_target m r g hwcg) hneq

/-- C6 witness: the residual row of the other target dataset survives the
concrete rule even though it would join-match. -/
theorem drm_target_filter_witness : rowW3 ∈ prW.1.noMatching := by
  obtain ⟨hwc, jc, hc, hsel, hpres⟩ :=
    drm_target_filter mW stW ("r1", ["a"]) prW (by decide) (by decide) (by decide) (by rfl)
  exact hpres rowW3 (by decide) (by decide)

theorem replay_append (m : MatcherCtx) (st : DbState) (l1 l2 : List DbEvent) :
    replay m st (l1 ++ l2) = replay m (replay m st l1) l2 := by
  unfold replay
  exact List.foldl_append _ _ l1 l2

theorem okEvent_noMatching_subset (m : MatcherCtx) (st : DbState) (e : DbEvent)
    (h : okEvent m.no_matching_source.table e) :
    ∀ r ∈ (applyEvent m st e).noMatching, r ∈ st.noMatching := by
  intro r hr
  cases e with
  | insertFromSelect t names sel =>
    simp only [applyEvent] at hr
    simp only [okEvent] at h
    rw [if_neg h] at hr
    exact hr
  | deleteWhereIn t idName sub =>
    simp only [applyEvent] at hr
    by_cases ht : t = m.no_matching_source.table
    · rw [if_pos ht] at hr
      exact (List.mem_filter.mp hr).1
    · rw [if_neg ht] at hr
      exact hr

theorem replay_noMatching_subset (m : MatcherCtx) (evs : List DbEvent) :
    ∀ st : DbState, (∀ e ∈ evs, okEvent m.no_matching_source.table e) →
      ∀ r ∈ (replay m st evs).noMatching, r ∈ st.noMatching := by
  induction evs with
  | nil => intro st hok r hr; exact hr
  | cons e rest ih =>
    intro st hok r hr
    have h1 : replay m st (e :: rest) = replay m (applyEvent m st e) rest := rfl
    rw [h1] at hr
    exact okEvent_noMatching_subset m st e (hok e (List.mem_cons_self e rest))
      r (ih (applyEvent m st e) (fun x hx => hok x (List.mem_cons_of_mem e hx)) r hr)

theorem runRules_facts (m : MatcherCtx) (rs : List (String × List String)) :
    ∀ (st : DbState) (tr : List DbEvent) (st' : DbState),
      runRules m st rs = (tr, .ok st') →
      st' = replay m st tr ∧
      insertDeletePairs m.matching_source.table m.no_matching_source.table tr = true ∧
      ∀ e ∈ tr, eventShape m.matching_source.table m.no_matching_source.table e := by
  induction rs with
  | nil =>
    intro st tr st' h
    unfold runRules at h
    injection h with h1 h2
    injection h2 with h2
    subst h1
    subst h2
    exact ⟨rfl, rfl, by simp⟩
  | cons r rest ih =>
    intro st tr st' h
    unfold runRules at h
    cases hp : processRule m st r with
    | error e =>
      rw [hp] at h
      injection h with h1 h2
      exact Except.noConfusion h2
    | ok q =>
      rw [hp] at h
      obtain ⟨st1, evs1⟩ := q
      injection h with h1 h2
      obtain ⟨jc, wc, hc, hev, hst⟩ := processRule_ok m st r (st1, evs1) hp
      obtain ⟨ih1, ih2, ih3⟩ := ih st1 (runRules m st1 rest).1 st'
        (by rw [← h2])
      have hev' : evs1 = [insEvent m r.1 jc wc, delEvent m jc wc] := hev
      have hst' : st1 = replay m st evs1 := hst
      subst h1
      refine ⟨?_, ?_, ?_⟩
      · rw [replay_append, ← hst']
        exact ih1
      · rw [hev']
        simp only [List.cons_append, List.nil_append, insEvent, delEvent, insertDeletePairs]
        simp [ih2]
      · intro e he
        rcases List.mem_append.mp he with h1 | h1
        · rw [hev'] at h1
          rcases List.mem_cons.mp h1 with rfl | h1
          · simp only [insEvent, eventShape]
          · rcases List.mem_cons.mp h1 with rfl | h1
            · simp only [delEvent, eventShape]
            · exact absurd h1 (List.not_mem_nil e)
        · exact ih3 e h1

/-- C4: in a successful run every rule contributes an insert into the matching
table immediately followed by the delete from the no-matching table (never the
other way round), the final state is the replay of the recorded statements,
and after any crash prefix of the statement sequence the no-matching table is
still a superset of the final (fully purged) residual set. -/
theorem drm_insert_before_delete (m : MatcherCtx) (st : DbState) (tr : List DbEvent)
    (st' : DbState) (hmt : m.matching_source.table ≠ m.no_matching_source.table)
    (h : execute_matching m st = (tr, .ok st')) :
    insertDeletePairs m.matching_source.table m.no_matching_source.table tr = true ∧
    st' = replay m st tr ∧
    ∀ pre post, tr = pre ++ post → ∀ r ∈ st'.noMatching, r ∈ (replay m st pre).noMatching := by
  unfold execute_matching at h
  obtain ⟨hst, hpairs, hshape⟩ := runRules_facts m m.matching_rules st tr st' h
  refine ⟨hpairs, hst, ?_⟩
  intro pre post hsplit r hr
  have hpost : st' = replay m (replay m st pre) post := by
    rw [hst, hsplit, replay_append]
  apply replay_noMatching_subset m post (replay m st pre) ?_ r (by rw [← hpost]; exact hr)
  intro e he
  have hsh : eventShape m.matching_source.table m.no_matching_source.table e :=
    hshape e (by rw [hsplit]; exact List.mem_append_right pre he)
  cases e with
  | insertFromSelect t names sel =>
    simp only [eventShape] at hsh
    simp only [okEvent]
    rw [hsh]
    exact hmt
  | deleteWhereIn t idName sub => simp only [okEvent]

/-- C4 witness: the concrete run's trace is an insert-delete alternation. -/
theorem drm_insert_before_delete_witness :
    insertDeletePairs mW.matching_source.table mW.no_matching_source.table
      (execute_matching mW stW).1 = true :=
  (drm_insert_before_delete mW stW (execute_matching mW stW).1 stW1 (by decide) (by rfl)).1

theorem dbState_ext (s1 s2 : DbState) (h1 : s1.matching = s2.matching)
    (h2 : s1.noMatching = s2.noMatching) : s1 = s2 := by
  cases s1
  cases s2
  cases h1
  cases h2
  rfl

theorem matchedPairs_nil (m : MatcherCtx) (st : DbState) (jc wc : Condition)
    (hall : ∀ r ∈ st.noMatching, matchedRow m jc wc r = false) :
    matchedPairs m st jc wc = [] := by
  unfold matchedPairs
  rw [List.filter_eq_nil_iff]
  intro p hp
  obtain ⟨hp1, hp2⟩ := (mem_crossJoin _ _ p).mp hp
  intro hcontra
  have hmr : matchedRow m jc wc p.1 = true :=
    (matchedRow_iff m jc wc p.1).mpr
      ⟨p.2, hp2, (Bool.and_eq_true_iff.mp hcontra).1, (Bool.and_eq_true_iff.mp hcontra).2⟩
  rw [hall p.1 hp1] at hmr
  exact Bool.noConfusion hmr

theorem applyEvent_ins_noop (m : MatcherCtx) (st : DbState) (rule_name : String)
    (jc wc : Condition)
    (hmt : m.matching_source.table ≠ m.no_matching_source.table)
    (hrt : m.ref_source.table ≠ m.no_matching_source.table)
    (hall : ∀ r ∈ st.noMatching, matchedRow m jc wc r = false) :
    applyEvent m st (insEvent m rule_name jc wc) = st := by
  have hpairs : (selStmOf m rule_name jc wc).pairsOf m st = [] := by
    rw [show (selStmOf m rule_name jc wc).pairsOf m st = matchedPairs m st jc wc from
      pairsOf_eq_matchedPairs m st _ jc wc hrt]
    exact matchedPairs_nil m st jc wc hall
  obtain ⟨hno, hmat⟩ := applyEvent_insEvent m st rule_name jc wc hmt
  apply dbState_ext
  · rw [hmat, hpairs]
    simp
  · exact hno

theorem applyEvent_del_noop (m : MatcherCtx) (st : DbState) (jc wc : Condition)
    (hrt : m.ref_source.table ≠ m.no_matching_source.table)
    (hall : ∀ r ∈ st.noMatching, matchedRow m jc wc r = false) :
    applyEvent m st (delEvent m jc wc) = st := by
  have hids : delIds m st jc wc = [] := by
    rw [delIds_eq m st jc wc hrt, matchedPairs_nil m st jc wc hall]
    rfl
  obtain ⟨hmat, hno⟩ := applyEvent_delEvent m st jc wc
  apply dbState_ext _ _ hmat
  rw [hno, hids]
  apply List.filter_eq_self.mpr
  intro r hr
  cases hv : Row.val r m.no_matching_source.matching_id <;> simp [inIds, hv]

theorem processRule_noop (m : MatcherCtx) (st : DbState) (rule : String × List String)
    (jc wc : Condition)
    (hmt : m.matching_source.table ≠ m.no_matching_source.table)
    (hrt : m.ref_source.table ≠ m.no_matching_source.table)
    (hc : _get_conditions m rule.2 = .ok (some jc, wc))
    (hall : ∀ r ∈ st.noMatching, matchedRow m jc wc r = false) :
    processRule m st rule = .ok (st, [insEvent m rule.1 jc wc, delEvent m jc wc]) := by
  unfold processRule
  simp only [hc]
  rw [applyEvent_ins_noop m st rule.1 jc wc hmt hrt hall,
      applyEvent_del_noop m st jc wc hrt hall]

theorem runRules_post (m : MatcherCtx)
    (hmt : m.matching_source.table ≠ m.no_matching_source.table)
    (hrt : m.ref_source.table ≠ m.no_matching_source.table)
    (rs : List (String × List String)) :
    ∀ (st : DbState) (tr : List DbEvent) (st' : DbState),
      (∀ r ∈ st.noMatching, (Row.val r m.no_matching_source.matching_id).isSome = true) →
      runRules m st rs = (tr, .ok st') →
      (∀ r ∈ st'.noMatching, r ∈ st.noMatching) ∧
      (∀ r0 ∈ rs, ∃ jc wc, _get_conditions m r0.2 = .ok (some jc, wc)) ∧
      (∀ r0 ∈ rs, ∀ jc wc, _get_conditions m r0.2 = .ok (some jc, wc) →
        ∀ r ∈ st'.noMatching, matchedRow m jc wc r = false) := by
  induction rs with
  | nil =>
    intro st tr st' hsome h
    unfold runRules at h
    injection h with h1 h2
    injection h2 with h2
    subst h2
    exact ⟨fun r hr => hr, by simp, by simp⟩
  | cons r0 rest ih =>
    intro st tr st' hsome h
    unfold runRules at h
    cases hp : processRule m st r0 with
    | error e =>
      rw [hp] at h
      injection h with h1 h2
      exact Except.noConfusion h2
    | ok q =>
      rw [hp] at h
      obtain ⟨st1, evs1⟩ := q
      injection h with h1 h2
      obtain ⟨jc0, wc0, hc0, hev, hst⟩ := processRule_ok m st r0 (st1, evs1) hp
      have hno : st1.noMatching = st.noMatching.filter
          (fun r => !(inIds (Row.val r m.no_matching_source.matching_id)
            (delIds m st jc0 wc0))) :=
        processRule_noMatching m st r0 (st1, evs1) hmt hrt hp jc0 wc0 hc0
      have hsub1 : ∀ r ∈ st1.noMatching, r ∈ st.noMatching := by
        intro r hr
        rw [hno] at hr
        exact (List.mem_filter.mp hr).1
      have hsome1 : ∀ r ∈ st1.noMatching,
          (Row.val r m.no_matching_source.matching_id).isSome = true :=
        fun r hr => hsome r (hsub1 r hr)
      have hrun : runRules m st1 rest = ((runRules m st1 rest).1, .ok st') := by
        rw [← h2]
      obtain ⟨ihsub, ihconds, ihpost⟩ := ih st1 (runRules m st1 rest).1 st' hsome1 hrun
      refine ⟨fun r hr => hsub1 r (ihsub r hr), ?_, ?_⟩
      · intro r1 hr1
        rcases List.mem_cons.mp hr1 with rfl | hmem
        · exact ⟨jc0, wc0, hc0⟩
        · exact ihconds r1 hmem
      · intro r1 hr1 jc wc hc r hr
        rcases List.mem_cons.mp hr1 with rfl | hmem
        · rw [hc0] at hc
          injection hc with hc
          injection hc with hca hcb
          injection hca with hca
          subst hca
          subst hcb
          have hr1' := ihsub r hr
          rw [hno] at hr1'
          obtain ⟨hrin, hkeep⟩ := List.mem_filter.mp hr1'
          cases hm : matchedRow m jc0 wc0 r with
          | false => rfl
          | true =>
            rw [inIds_complete m st jc0 wc0 r hrt hrin (hsome r hrin) hm] at hkeep
            exact Bool.noConfusion hkeep
        · exact ihpost r1 hmem jc wc hc r hr

theorem runRules_noop (m : MatcherCtx)
    (hmt : m.matching_source.table ≠ m.no_matching_source.table)
    (hrt : m.ref_source.table ≠ m.no_matching_source.table)
    (rs : List (String × List String)) :
    ∀ st : DbState,
      (∀ r0 ∈ rs, ∃ jc wc, _get_conditions m r0.2 = .ok (some jc, wc) ∧
        ∀ r ∈ st.noMatching, matchedRow m jc wc r = false) →
      (runRules m st rs).2 = .ok st ∧
      ∀ e ∈ (runRules m st rs).1, applyEvent m st e = st := by
  induction rs with
  | nil =>
    intro st hh
    exact ⟨rfl, fun e he => absurd he (List.not_mem_nil e)⟩
  | cons r0 rest ih =>
    intro st hh
    obtain ⟨jc, wc, hc, hall⟩ := hh r0 (List.mem_cons_self r0 rest)
    have hpr := processRule_noop m st r0 jc wc hmt hrt hc hall
    have hins := applyEvent_ins_noop m st r0.1 jc wc hmt hrt hall
    have hdel := applyEvent_del_noop m st jc wc hrt hall
    have hrest := ih st (fun r1 h1 => hh r1 (List.mem_cons_of_mem r0 h1))
    constructor
    · show (runRules m st (r0 :: rest)).2 = .ok st
      unfold runRules
      simp only [hpr]
      exact hrest.1
    · intro e he
      unfold runRules at he
      simp only [hpr] at he
      rcases List.mem_append.mp he with h1 | h1
      · rcases List.mem_cons.mp h1 with rfl | h1
        · exact hins
        · rcases List.mem_cons.mp h1 with rfl | h1
          · exact hdel
          · exact absurd h1 (List.not_mem_nil e)
      · exact hrest.2 e h1

theorem replay_fixed (m : MatcherCtx) (st : DbState) (evs : List DbEvent)
    (h : ∀ e ∈ evs, applyEvent m st e = st) : replay m st evs = st := by
  induction evs with
  | nil => rfl
  | cons e rest ih =>
    have h1 : replay m st (e :: rest) = replay m (applyEvent m st e) rest := rfl
    rw [h1, h e (List.mem_cons_self e rest)]
    exact ih (fun x hx => h x (List.mem_cons_of_mem e hx))

/-- C5: running the residual matcher a second time over the state a
successful run produced (same rules, unchanged referential data; matching-id
values present, matching and no-matching tables distinct from each other and
from the referential table) succeeds, leaves the state unchanged, and every
prefix of the second run's statements replays to the same state: the second
run inserts zero rows and deletes zero rows. -/
theorem drm_idempotent (m : MatcherCtx) (st0 : DbState) (tr1 : List DbEvent) (st1 : DbState)
    (hmt : m.matching_source.table ≠ m.no_matching_source.table)
    (hrt : m.ref_source.table ≠ m.no_matching_source.table)
    (hsome : ∀ r ∈ st0.noMatching, (Row.val r m.no_matching_source.matching_id).isSome = true)
    (h1 : execute_matching m st0 = (tr1, .ok st1)) :
    (execute_matching m st1).2 = .ok st1 ∧
    ∀ pre post, (execute_matching m st1).1 = pre ++ post → replay m st1 pre = st1 := by
  unfold execute_matching at h1 ⊢
  obtain ⟨hsub, hconds, hpost⟩ := runRules_post m hmt hrt m.matching_rules st0 tr1 st1 hsome h1
  have hh : ∀ r0 ∈ m.matching_rules, ∃ jc wc,
      _get_conditions m r0.2 = .ok (some jc, wc) ∧
      ∀ r ∈ st1.noMatching, matchedRow m jc wc r = false := by
    intro r0 hr0
    obtain ⟨jc, wc, hc⟩ := hconds r0 hr0
    exact ⟨jc, wc, hc, hpost r0 hr0 jc wc hc⟩
  obtain ⟨hok, hfix⟩ := runRules_noop m hmt hrt m.matching_rules st1 hh
  refine ⟨hok, ?_⟩
  intro pre post hsplit
  apply replay_fixed m st1 pre
  intro e he
  exact hfix e (by rw [hsplit]; exact List.mem_append_left post he)

/-- C5 witness: rerunning the matcher on the concrete post-run state keeps it
unchanged. -/
theorem drm_idempotent_witness : (execute_matching mW stW1).2 = .ok stW1 :=
  (drm_idempotent mW stW (execute_matching mW stW).1 stW1 (by decide) (by decide)
    (by decide) (by rfl)).1

end EsgMatching
